import Mathlib

/-!
Shallow embedding of the rlog structured-logging facade (package rlog,
file rlog.go) and proofs about it.

Modelling conventions:
- Go interface values of type any are modelled by the inductive GoVal;
  a nil interface is GoVal.nil.
- Go run-time panics are modelled by the error side of Except GoPanic:
  index-out-of-range panics, failed type assertions, method calls on a
  nil interface, and explicit panic calls with a message string.
- A slice index read or write is modelled by goIndex and setIdx, which
  perform the bounds check Go performs.
- The LogHandler interface is modelled by a structure holding the
  Enabled predicate; the effect of Handle is observed through the
  record (or list of records) an operation returns: an operation that
  returns Except.ok rs delivered exactly the records rs to Handle, in
  order, and an operation that returns Except.error p panicked before
  completing and delivered only what the model says it did.
- The package-level mutable variables _default_handler and
  _default_r_log are modelled by the state record RlogState, with the
  package functions written in explicit state-passing style.  A Go
  pointer to a logger is modelled by ILoggerRef: the shared
  _default_r_log pointer is ILoggerRef.defaultPtr, and each value
  returned by GetLogger is a fresh, independent ILoggerRef.fresh.
-/

/-- Go interface values (the any type) as the facade can observe them. -/
inductive GoVal where
  | str : String → GoVal
  | int : Int → GoVal
  | boolVal : Bool → GoVal
  | nil : GoVal
deriving DecidableEq

/-- True exactly when the dynamic type of the value is string. -/
def GoVal.isStr : GoVal → Bool
  | GoVal.str _ => true
  | _ => false

/-- Go run-time aborts that the facade can trigger. -/
inductive GoPanic where
  | indexOutOfRange : GoPanic
  | typeAssertionFailed : GoPanic
  | nilInterfaceDeref : GoPanic
  | explicitPanic : String → GoPanic
deriving DecidableEq

/-- LogLevel is int8 in the source; every value used fits in int8, so we
model it as Int. -/
abbrev LogLevel := Int

/-- LogLevelDebug = iota - 1 = -1 (rlog.go line 25). -/
def LogLevelDebug : LogLevel := -1

/-- LogLevelInfo = 0 (rlog.go line 26). -/
def LogLevelInfo : LogLevel := 0

/-- LogLevelWarn = 1 (rlog.go line 27). -/
def LogLevelWarn : LogLevel := 1

/-- LogLevelError = 2 (rlog.go line 28). -/
def LogLevelError : LogLevel := 2

/-- Constant ATTR_KEY_MODULE (rlog.go line 13). -/
def ATTR_KEY_MODULE : String := "module"

/-- Constant DEFAULT_MODULE_NAME (rlog.go line 14). -/
def DEFAULT_MODULE_NAME : String := "default"

/-- LogAttr (rlog.go lines 31 to 34). -/
structure LogAttr where
  Key : String
  Value : GoVal
deriving DecidableEq

/-- The Go zero value of LogAttr: empty key, nil interface value.  This
is what make([]LogAttr, size) fills the slice with. -/
def zeroLogAttr : LogAttr := { Key := "", Value := GoVal.nil }

/-- LogRecord (rlog.go lines 36 to 40). -/
structure LogRecord where
  Message : String
  Attrs : List LogAttr
  Level : LogLevel
deriving DecidableEq

/-- The LogHandler interface (rlog.go lines 42 to 45).  Only the Enabled
predicate is data; the effect of Handle is observed through the records
returned by the logging operations. -/
structure LogHandler where
  Enabled : LogLevel → Bool

/-- The concrete logger struct _r_logger (rlog.go lines 47 to 50).  Its
handler field is an interface value and may be nil (Option). -/
structure _r_logger where
  module : String
  handler : Option LogHandler

/-- A bounds-checked Go slice read args[i]. -/
def goIndex (xs : List GoVal) (i : Nat) : Except GoPanic GoVal :=
  match xs[i]? with
  | some v => Except.ok v
  | none => Except.error GoPanic.indexOutOfRange

/-- The Go type assertion v.(string). -/
def asString : GoVal → Except GoPanic String
  | GoVal.str s => Except.ok s
  | _ => Except.error GoPanic.typeAssertionFailed

/-- A bounds-checked Go slice write xs[i] = v. -/
def setIdx (xs : List LogAttr) (i : Nat) (v : LogAttr) : Except GoPanic (List LogAttr) :=
  if i < xs.length then Except.ok (xs.set i v) else Except.error GoPanic.indexOutOfRange

/-- The loop of doLog (rlog.go lines 63 to 68):
for i := 0; i < len(args); i += 2 the loop body executes
attrs[i/2] = LogAttr(Key: args[i].(string), Value: args[i+1]),
with every slice access bounds-checked and the type assertion able to
panic, in source evaluation order. -/
def fillLoop (args : List GoVal) (attrs : List LogAttr) (i : Nat) : Except GoPanic (List LogAttr) :=
  if _h : i < args.length then do
    let kv ← goIndex args i
    let k ← asString kv
    let v ← goIndex args (i + 1)
    let attrs2 ← setIdx attrs (i / 2) { Key := k, Value := v }
    fillLoop args attrs2 (i + 2)
  else
    Except.ok attrs
termination_by args.length - i
decreasing_by omega

/-- doLog (rlog.go lines 59 to 80): size = len(args)/2 + 1, a fresh
zeroed attrs slice of that length, the fill loop, the trailing module
attribute written at index size-1, and the record handed to
handler.Handle.  The record being returned in Except.ok models that
single Handle call. -/
def _r_logger.doLog (l : _r_logger) (msg : String) (level : LogLevel) (args : List GoVal) : Except GoPanic LogRecord := do
  let size := args.length / 2 + 1
  let attrs0 := List.replicate size zeroLogAttr
  let attrs1 ← fillLoop args attrs0 0
  let attrs2 ← setIdx attrs1 (size - 1) { Key := ATTR_KEY_MODULE, Value := GoVal.str l.module }
  Except.ok { Message := msg, Attrs := attrs2, Level := level }

/-- Debug (rlog.go lines 82 to 86): calling Enabled on a nil handler
interface panics; otherwise the level gate runs and, when open, doLog
produces (at most) one record. -/
def _r_logger.Debug (l : _r_logger) (msg : String) (args : List GoVal) : Except GoPanic (List LogRecord) :=
  match l.handler with
  | none => Except.error GoPanic.nilInterfaceDeref
  | some h =>
    if h.Enabled LogLevelDebug then
      (l.doLog msg LogLevelDebug args).map (fun r => [r])
    else
      Except.ok []

/-- Info (rlog.go lines 88 to 92). -/
def _r_logger.Info (l : _r_logger) (msg : String) (args : List GoVal) : Except GoPanic (List LogRecord) :=
  match l.handler with
  | none => Except.error GoPanic.nilInterfaceDeref
  | some h =>
    if h.Enabled LogLevelInfo then
      (l.doLog msg LogLevelInfo args).map (fun r => [r])
    else
      Except.ok []

/-- Warn (rlog.go lines 94 to 98). -/
def _r_logger.Warn (l : _r_logger) (msg : String) (args : List GoVal) : Except GoPanic (List LogRecord) :=
  match l.handler with
  | none => Except.error GoPanic.nilInterfaceDeref
  | some h =>
    if h.Enabled LogLevelWarn then
      (l.doLog msg LogLevelWarn args).map (fun r => [r])
    else
      Except.ok []

/-- Error (rlog.go lines 100 to 104). -/
def _r_logger.Error (l : _r_logger) (msg : String) (args : List GoVal) : Except GoPanic (List LogRecord) :=
  match l.handler with
  | none => Except.error GoPanic.nilInterfaceDeref
  | some h =>
    if h.Enabled LogLevelError then
      (l.doLog msg LogLevelError args).map (fun r => [r])
    else
      Except.ok []

/-- The package-level mutable state: the variables _default_handler
(rlog.go line 17) and _default_r_log (rlog.go lines 18 to 20). -/
structure RlogState where
  _default_handler : Option LogHandler
  _default_r_log : _r_logger

/-- Program start: _default_handler is the nil interface and
_default_r_log is the struct literal with module DEFAULT_MODULE_NAME
and a nil handler field (rlog.go lines 17 to 20). -/
def initRlogState : RlogState :=
  { _default_handler := none
    _default_r_log := { module := DEFAULT_MODULE_NAME, handler := none } }

/-- SetRLogDefaultHandler (rlog.go lines 110 to 113): store h in the
global slot and into the shared default logger instance. -/
def SetRLogDefaultHandler (h : Option LogHandler) (s : RlogState) : RlogState :=
  { _default_handler := h
    _default_r_log := { s._default_r_log with handler := h } }

/-- A Go pointer to a logger: either the shared _default_r_log pointer
or a pointer to a freshly allocated struct holding its own fields. -/
inductive ILoggerRef where
  | defaultPtr : ILoggerRef
  | fresh : _r_logger → ILoggerRef

/-- Dereference a logger pointer in a given state. -/
def derefLogger (s : RlogState) : ILoggerRef → _r_logger
  | ILoggerRef.defaultPtr => s._default_r_log
  | ILoggerRef.fresh l => l

/-- GetDefaultLogger (rlog.go lines 115 to 121). -/
def GetDefaultLogger (s : RlogState) : Except GoPanic ILoggerRef :=
  match s._default_handler with
  | none => Except.error (GoPanic.explicitPanic ("Please set the default handler first."))
  | some _ => Except.ok ILoggerRef.defaultPtr

/-- GetLogger (rlog.go lines 132 to 141): panic when the global handler
is nil, else return a fresh logger struct carrying the module name and
the currently installed handler. -/
def GetLogger (module : String) (s : RlogState) : Except GoPanic ILoggerRef :=
  match s._default_handler with
  | none => Except.error (GoPanic.explicitPanic ("Please set the default handler first."))
  | some _ => Except.ok (ILoggerRef.fresh { module := module, handler := s._default_handler })

/-- States reachable from program start by the facade operations.  Only
SetRLogDefaultHandler mutates the package state; the getters and the
logging methods leave it unchanged. -/
inductive Reachable : RlogState → Prop where
  | init : Reachable initRlogState
  | set : ∀ (s : RlogState) (h : Option LogHandler), Reachable s → Reachable (SetRLogDefaultHandler h s)

/-- Evolves s s2 holds when s2 results from s by some (possibly empty)
sequence of facade operations. -/
inductive Evolves : RlogState → RlogState → Prop where
  | refl : ∀ (s : RlogState), Evolves s s
  | set : ∀ (s s2 : RlogState) (h : Option LogHandler), Evolves s s2 → Evolves s (SetRLogDefaultHandler h s2)

/-- Proof device: the fill loop of doLog rephrased as structural
recursion on the not-yet-processed suffix of args, writing at index j.
fillLoop_eq_fillSimple proves it equal to fillLoop. -/
def fillSimple : List GoVal → List LogAttr → Nat → Except GoPanic (List LogAttr)
  | [], attrs, _ => Except.ok attrs
  | [x], _, _ =>
    match asString x with
    | Except.ok _ => Except.error GoPanic.indexOutOfRange
    | Except.error e => Except.error e
  | k :: v :: rest, attrs, j =>
    match asString k with
    | Except.error e => Except.error e
    | Except.ok ks =>
      match setIdx attrs j { Key := ks, Value := v } with
      | Except.error e => Except.error e
      | Except.ok attrs2 => fillSimple rest attrs2 (j + 1)

/-- The key/value pair list (k1, v1, ..., kn, vn) as the flat variadic
argument list handed to a leveled call. -/
def zipPairs : List String → List GoVal → List GoVal
  | k :: ks, v :: vs => GoVal.str k :: v :: zipPairs ks vs
  | _, _ => []

/-- The same pairs as the LogAttr list the spec says the record must
contain. -/
def zipAttrs : List String → List GoVal → List LogAttr
  | k :: ks, v :: vs => { Key := k, Value := v } :: zipAttrs ks vs
  | _, _ => []

theorem zipPairs_length (ks : List String) (vs : List GoVal) (h : ks.length = vs.length) :
    (zipPairs ks vs).length = 2 * ks.length := by
  induction ks generalizing vs with
  | nil => simp [zipPairs]
  | cons k ks ih =>
    cases vs with
    | nil => simp at h
    | cons v vs =>
      simp only [zipPairs, List.length_cons]
      have := ih vs (by simpa using h)
      omega

theorem zipAttrs_length (ks : List String) (vs : List GoVal) (h : ks.length = vs.length) :
    (zipAttrs ks vs).length = ks.length := by
  induction ks generalizing vs with
  | nil => simp [zipAttrs]
  | cons k ks ih =>
    cases vs with
    | nil => simp at h
    | cons v vs =>
      simp only [zipAttrs, List.length_cons]
      have := ih vs (by simpa using h)
      omega

theorem exbind_ok {α β : Type} (a : α) (f : α → Except GoPanic β) :
    (Except.ok a : Except GoPanic α) >>= f = f a := rfl

theorem exbind_err {α β : Type} (e : GoPanic) (f : α → Except GoPanic β) :
    (Except.error e : Except GoPanic α) >>= f = Except.error e := rfl

theorem exmap_ok {α β : Type} (a : α) (f : α → β) :
    (Except.ok a : Except GoPanic α).map f = Except.ok (f a) := rfl

theorem exmap_err {α β : Type} (e : GoPanic) (f : α → β) :
    (Except.error e : Except GoPanic α).map f = Except.error e := rfl

/-- Writing at the seam of an append: setting index pre.length of
pre ++ b :: post replaces b. -/
theorem set_append_seam {α : Type} (pre : List α) (b a : α) (post : List α) :
    (pre ++ b :: post).set pre.length a = pre ++ a :: post := by
  induction pre with
  | nil => rfl
  | cons p ps ih => simp [List.set_cons_succ, ih]

/-- The index loop of doLog equals its structural rephrasing: starting
at index i with the suffix args.drop i left to process, writing from
attribute index i / 2. -/
theorem fillLoop_eq_fillSimple :
    ∀ (n : Nat) (args : List GoVal) (i : Nat) (attrs : List LogAttr),
      args.length ≤ i + n →
      fillLoop args attrs i = fillSimple (args.drop i) attrs (i / 2) := by
  intro n
  induction n with
  | zero =>
    intro args i attrs hle
    rw [fillLoop]
    simp only [Nat.add_zero] at hle
    rw [dif_neg (by omega)]
    rw [List.drop_eq_nil_iff.mpr hle]
    rfl
  | succ n ih =>
    intro args i attrs hle
    by_cases hlt : i < args.length
    · have hget0 : args[i]? = (args.drop i)[0]? := by
        simp [List.getElem?_drop]
      have hget1 : args[i + 1]? = (args.drop i)[1]? := by
        simp [List.getElem?_drop]
      have hdlen : (args.drop i).length = args.length - i := List.length_drop i args
      rw [fillLoop]
      rw [dif_pos hlt]
      cases hd : args.drop i with
      | nil =>
        exfalso
        rw [hd] at hdlen
        simp at hdlen
        omega
      | cons x rest =>
        cases rest with
        | nil =>
          have h0 : args[i]? = some x := by rw [hget0, hd]; simp
          have h1 : args[i + 1]? = none := by rw [hget1, hd]; simp
          simp only [goIndex, h0, h1, exbind_ok]
          cases hx : asString x with
          | ok s => simp [fillSimple, hx, exbind_ok, exbind_err]
          | error e => simp [fillSimple, hx, exbind_err]
        | cons v rest2 =>
          have h0 : args[i]? = some x := by rw [hget0, hd]; simp
          have h1 : args[i + 1]? = some v := by rw [hget1, hd]; simp
          simp only [goIndex, h0, h1, exbind_ok]
          cases hx : asString x with
          | error e => simp [fillSimple, hx, exbind_err]
          | ok s =>
            simp only [fillSimple, hx, exbind_ok]
            cases hs : setIdx attrs (i / 2) { Key := s, Value := v } with
            | error e => simp [hs, exbind_err]
            | ok attrs2 =>
              simp only [hs, exbind_ok]
              have hrest : args.drop (i + 2) = rest2 := by
                have : List.drop 2 (args.drop i) = rest2 := by rw [hd]; rfl
                rwa [List.drop_drop] at this
              have := ih args (i + 2) attrs2 (by omega)
              rw [this, hrest]
              congr 1
              omega
    · rw [fillLoop]
      rw [dif_neg hlt]
      rw [List.drop_eq_nil_iff.mpr (by omega)]
      rfl

/-- Entry-point form of the loop equivalence. -/
theorem fillLoop_zero (args : List GoVal) (attrs : List LogAttr) :
    fillLoop args attrs 0 = fillSimple args attrs 0 := by
  have := fillLoop_eq_fillSimple args.length args 0 attrs (by omega)
  simpa using this

/-- Two-step induction principle for lists of arguments, matching the
shape of fillSimple. -/
theorem twoStepList {P : List GoVal → Prop} (h0 : P []) (h1 : ∀ x, P [x])
    (h2 : ∀ k v rest, P rest → P (k :: v :: rest)) : ∀ l, P l
  | [] => h0
  | [x] => h1 x
  | k :: v :: rest => h2 k v rest (twoStepList h0 h1 h2 rest)

/-- Running fillSimple over a well-formed pair list writes the pairs in
order starting at the seam of pre and post, leaving pre and the tail of
post untouched. -/
theorem fillSimple_pairs :
    ∀ (ks : List String) (vs : List GoVal) (pre post : List LogAttr),
      ks.length = vs.length → ks.length ≤ post.length →
      fillSimple (zipPairs ks vs) (pre ++ post) pre.length =
        Except.ok (pre ++ zipAttrs ks vs ++ post.drop ks.length) := by
  intro ks
  induction ks with
  | nil =>
    intro vs pre post hlen hle
    simp [zipPairs, zipAttrs, fillSimple]
  | cons k ks ih =>
    intro vs pre post hlen hle
    cases vs with
    | nil => simp at hlen
    | cons v vs =>
      cases post with
      | nil => simp at hle
      | cons b post =>
        simp only [zipPairs, fillSimple, asString]
        have hset : setIdx (pre ++ b :: post) pre.length { Key := k, Value := v } =
            Except.ok (pre ++ { Key := k, Value := v } :: post) := by
          rw [setIdx, if_pos (by simp)]
          rw [set_append_seam]
        simp only [hset]
        have hre : pre ++ ({ Key := k, Value := v } : LogAttr) :: post =
            (pre ++ [({ Key := k, Value := v } : LogAttr)]) ++ post := by simp
        have hlen2 : pre.length + 1 = (pre ++ [({ Key := k, Value := v } : LogAttr)]).length := by
          simp
        rw [hre, hlen2, ih vs (pre ++ [({ Key := k, Value := v } : LogAttr)]) post
          (by simpa using hlen) (by simpa using hle)]
        simp [zipAttrs]

/-- Running fillSimple over a well-formed pair list followed by one
unpaired trailing string key panics with index out of range: the read
of args at the index one past the end. -/
theorem fillSimple_odd :
    ∀ (ks : List String) (vs : List GoVal) (x : String) (attrs : List LogAttr) (j : Nat),
      ks.length = vs.length → j + ks.length ≤ attrs.length →
      fillSimple (zipPairs ks vs ++ [GoVal.str x]) attrs j =
        Except.error GoPanic.indexOutOfRange := by
  intro ks
  induction ks with
  | nil =>
    intro vs x attrs j hlen hle
    cases vs with
    | nil => simp [zipPairs, fillSimple, asString]
    | cons v vs => simp at hlen
  | cons k ks ih =>
    intro vs x attrs j hlen hle
    cases vs with
    | nil => simp at hlen
    | cons v vs =>
      simp only [zipPairs, List.cons_append, fillSimple, asString]
      have hset : setIdx attrs j { Key := k, Value := v } =
          Except.ok (attrs.set j { Key := k, Value := v }) := by
        rw [setIdx, if_pos (by simp at hle ⊢; omega)]
      rw [hset]
      exact ih vs x (attrs.set j { Key := k, Value := v }) (j + 1)
        (by simpa using hlen) (by simp at hle ⊢; omega)

/-- Running fillSimple over a well-formed pair list followed by a value
of non-string dynamic type in key position panics with a failed type
assertion, whatever follows it. -/
theorem fillSimple_badKey :
    ∀ (ks : List String) (vs : List GoVal) (x : GoVal) (rest : List GoVal)
      (attrs : List LogAttr) (j : Nat),
      ks.length = vs.length → x.isStr = false → j + ks.length ≤ attrs.length →
      fillSimple (zipPairs ks vs ++ x :: rest) attrs j =
        Except.error GoPanic.typeAssertionFailed := by
  intro ks
  induction ks with
  | nil =>
    intro vs x rest attrs j hlen hx hle
    cases vs with
    | nil =>
      have hax : asString x = Except.error GoPanic.typeAssertionFailed := by
        cases x <;> simp [GoVal.isStr] at hx ⊢ <;> rfl
      cases rest with
      | nil => simp [zipPairs, fillSimple, hax]
      | cons r rs => simp [zipPairs, fillSimple, hax]
    | cons v vs => simp at hlen
  | cons k ks ih =>
    intro vs x rest attrs j hlen hx hle
    cases vs with
    | nil => simp at hlen
    | cons v vs =>
      simp only [zipPairs, List.cons_append, fillSimple, asString]
      have hset : setIdx attrs j { Key := k, Value := v } =
          Except.ok (attrs.set j { Key := k, Value := v }) := by
        rw [setIdx, if_pos (by simp at hle ⊢; omega)]
      rw [hset]
      exact ih vs x rest (attrs.set j { Key := k, Value := v }) (j + 1)
        (by simpa using hlen) hx (by simp at hle ⊢; omega)

/-- On any even-length argument list with enough room in attrs,
fillSimple never panics with index out of range: it either succeeds,
preserving the length of attrs, or fails the string type assertion. -/
theorem fillSimple_even :
    ∀ (rem : List GoVal), rem.length % 2 = 0 →
      ∀ (attrs : List LogAttr) (j : Nat), j + rem.length / 2 ≤ attrs.length →
      (∃ out, fillSimple rem attrs j = Except.ok out ∧ out.length = attrs.length) ∨
        fillSimple rem attrs j = Except.error GoPanic.typeAssertionFailed := by
  intro rem
  induction rem using twoStepList with
  | h0 =>
    intro _ attrs j _
    exact Or.inl ⟨attrs, rfl, rfl⟩
  | h1 x =>
    intro hmod
    simp at hmod
  | h2 k v rest ih =>
    intro hmod attrs j hle
    cases hk : asString k with
    | error e =>
      have he : e = GoPanic.typeAssertionFailed := by
        cases k <;> simp [asString] at hk <;> simp [hk]
      subst he
      exact Or.inr (by simp [fillSimple, hk])
    | ok s =>
      have hjlt : j < attrs.length := by
        simp only [List.length_cons] at hle
        omega
      have hset : setIdx attrs j { Key := s, Value := v } =
          Except.ok (attrs.set j { Key := s, Value := v }) := by
        rw [setIdx, if_pos hjlt]
      have hmod2 : rest.length % 2 = 0 := by
        simp only [List.length_cons] at hmod
        omega
      have hle2 : (j + 1) + rest.length / 2 ≤ (attrs.set j { Key := s, Value := v }).length := by
        simp only [List.length_set, List.length_cons] at hle ⊢
        omega
      rcases ih hmod2 (attrs.set j { Key := s, Value := v }) (j + 1) hle2 with ⟨out, hout, hlen⟩ | herr
      · refine Or.inl ⟨out, ?_, ?_⟩
        · simp [fillSimple, hk, hset, hout]
        · rw [hlen, List.length_set]
      · exact Or.inr (by simp [fillSimple, hk, hset, herr])

/-- On a well-formed even pair list, doLog builds exactly the input
pairs in order followed by the single trailing module attribute. -/
theorem doLog_pairs (l : _r_logger) (msg : String) (lvl : LogLevel)
    (ks : List String) (vs : List GoVal) (hlen : ks.length = vs.length) :
    l.doLog msg lvl (zipPairs ks vs) =
      Except.ok
        { Message := msg,
          Attrs := zipAttrs ks vs ++ [{ Key := ATTR_KEY_MODULE, Value := GoVal.str l.module }],
          Level := lvl } := by
  have hplen : (zipPairs ks vs).length = 2 * ks.length := zipPairs_length ks vs hlen
  have halen : (zipAttrs ks vs).length = ks.length := zipAttrs_length ks vs hlen
  have h2 : (zipPairs ks vs).length / 2 + 1 = ks.length + 1 := by rw [hplen]; omega
  have hfill : fillSimple (zipPairs ks vs)
      (List.replicate ((zipPairs ks vs).length / 2 + 1) zeroLogAttr) 0 =
      Except.ok (zipAttrs ks vs ++ [zeroLogAttr]) := by
    rw [h2]
    have hmain := fillSimple_pairs ks vs [] (List.replicate (ks.length + 1) zeroLogAttr)
      hlen (by simp)
    simpa [List.drop_replicate] using hmain
  have hset : setIdx (zipAttrs ks vs ++ [zeroLogAttr]) ((zipPairs ks vs).length / 2 + 1 - 1)
      { Key := ATTR_KEY_MODULE, Value := GoVal.str l.module } =
      Except.ok (zipAttrs ks vs ++ [{ Key := ATTR_KEY_MODULE, Value := GoVal.str l.module }]) := by
    have hz : (zipPairs ks vs).length / 2 + 1 - 1 = (zipAttrs ks vs).length := by
      rw [hplen, halen]; omega
    rw [hz, setIdx, if_pos (by simp)]
    rw [set_append_seam (zipAttrs ks vs) zeroLogAttr
      { Key := ATTR_KEY_MODULE, Value := GoVal.str l.module } []]
  simp only [_r_logger.doLog, fillLoop_zero, hfill, exbind_ok, hset]

/-- On a pair list followed by one unpaired trailing string key, doLog
panics reading args one index past the end. -/
theorem doLog_odd (l : _r_logger) (msg : String) (lvl : LogLevel)
    (ks : List String) (vs : List GoVal) (x : String) (hlen : ks.length = vs.length) :
    l.doLog msg lvl (zipPairs ks vs ++ [GoVal.str x]) =
      Except.error GoPanic.indexOutOfRange := by
  have hplen : (zipPairs ks vs).length = 2 * ks.length := zipPairs_length ks vs hlen
  have hfill : fillSimple (zipPairs ks vs ++ [GoVal.str x])
      (List.replicate ((zipPairs ks vs ++ [GoVal.str x]).length / 2 + 1) zeroLogAttr) 0 =
      Except.error GoPanic.indexOutOfRange := by
    apply fillSimple_odd ks vs x _ 0 hlen
    simp [hplen]
    omega
  simp only [_r_logger.doLog, fillLoop_zero, hfill, exbind_err]

/-- On a pair list followed by a non-string value in key position, doLog
panics on the type assertion before any record is built. -/
theorem doLog_badKey (l : _r_logger) (msg : String) (lvl : LogLevel)
    (ks : List String) (vs : List GoVal) (x : GoVal) (rest : List GoVal)
    (hlen : ks.length = vs.length) (hx : x.isStr = false) :
    l.doLog msg lvl (zipPairs ks vs ++ x :: rest) =
      Except.error GoPanic.typeAssertionFailed := by
  have hplen : (zipPairs ks vs).length = 2 * ks.length := zipPairs_length ks vs hlen
  have hfill : fillSimple (zipPairs ks vs ++ x :: rest)
      (List.replicate ((zipPairs ks vs ++ x :: rest).length / 2 + 1) zeroLogAttr) 0 =
      Except.error GoPanic.typeAssertionFailed := by
    apply fillSimple_badKey ks vs x rest _ 0 hlen hx
    simp [hplen]
    omega
  simp only [_r_logger.doLog, fillLoop_zero, hfill, exbind_err]

/-- On any even-length argument list, doLog performs no out-of-bounds
access: it either returns one record whose attribute slice was
completely filled to length len(args)/2 + 1, or fails only on the
string type assertion. -/
theorem doLog_even (l : _r_logger) (msg : String) (lvl : LogLevel)
    (args : List GoVal) (hmod : args.length % 2 = 0) :
    (∃ r, l.doLog msg lvl args = Except.ok r ∧ r.Attrs.length = args.length / 2 + 1) ∨
      l.doLog msg lvl args = Except.error GoPanic.typeAssertionFailed := by
  rcases fillSimple_even args hmod (List.replicate (args.length / 2 + 1) zeroLogAttr) 0
      (by simp) with ⟨out, hout, hlen⟩ | herr
  · left
    simp only [List.length_replicate] at hlen
    refine ⟨{ Message := msg,
              Attrs := out.set (args.length / 2 + 1 - 1)
                { Key := ATTR_KEY_MODULE, Value := GoVal.str l.module },
              Level := lvl }, ?_, ?_⟩
    · simp only [_r_logger.doLog, fillLoop_zero, hout, exbind_ok]
      rw [setIdx, if_pos (by omega)]
      rfl
    · simp only [List.length_set]
      omega
  · right
    simp only [_r_logger.doLog, fillLoop_zero, herr, exbind_err]

/-- Debug with the gate open forwards what doLog produces (rlog.go
lines 82 to 86). -/
theorem Debug_open (l : _r_logger) (h : LogHandler) (msg : String) (args : List GoVal)
    (hh : l.handler = some h) (hen : h.Enabled LogLevelDebug = true) :
    l.Debug msg args = (l.doLog msg LogLevelDebug args).map (fun r => [r]) := by
  simp [_r_logger.Debug, hh, hen]

/-- Debug with the gate closed does nothing. -/
theorem Debug_closed (l : _r_logger) (h : LogHandler) (msg : String) (args : List GoVal)
    (hh : l.handler = some h) (hen : h.Enabled LogLevelDebug = false) :
    l.Debug msg args = Except.ok [] := by
  simp [_r_logger.Debug, hh, hen]

/-- Info with the gate open forwards what doLog produces. -/
theorem Info_open (l : _r_logger) (h : LogHandler) (msg : String) (args : List GoVal)
    (hh : l.handler = some h) (hen : h.Enabled LogLevelInfo = true) :
    l.Info msg args = (l.doLog msg LogLevelInfo args).map (fun r => [r]) := by
  simp [_r_logger.Info, hh, hen]

/-- Info with the gate closed does nothing. -/
theorem Info_closed (l : _r_logger) (h : LogHandler) (msg : String) (args : List GoVal)
    (hh : l.handler = some h) (hen : h.Enabled LogLevelInfo = false) :
    l.Info msg args = Except.ok [] := by
  simp [_r_logger.Info, hh, hen]

/-- Warn with the gate open forwards what doLog produces. -/
theorem Warn_open (l : _r_logger) (h : LogHandler) (msg : String) (args : List GoVal)
    (hh : l.handler = some h) (hen : h.Enabled LogLevelWarn = true) :
    l.Warn msg args = (l.doLog msg LogLevelWarn args).map (fun r => [r]) := by
  simp [_r_logger.Warn, hh, hen]

/-- Warn with the gate closed does nothing. -/
theorem Warn_closed (l : _r_logger) (h : LogHandler) (msg : String) (args : List GoVal)
    (hh : l.handler = some h) (hen : h.Enabled LogLevelWarn = false) :
    l.Warn msg args = Except.ok [] := by
  simp [_r_logger.Warn, hh, hen]

/-- Error with the gate open forwards what doLog produces. -/
theorem Error_open (l : _r_logger) (h : LogHandler) (msg : String) (args : List GoVal)
    (hh : l.handler = some h) (hen : h.Enabled LogLevelError = true) :
    l.Error msg args = (l.doLog msg LogLevelError args).map (fun r => [r]) := by
  simp [_r_logger.Error, hh, hen]

/-- Error with the gate closed does nothing. -/
theorem Error_closed (l : _r_logger) (h : LogHandler) (msg : String) (args : List GoVal)
    (hh : l.handler = some h) (hen : h.Enabled LogLevelError = false) :
    l.Error msg args = Except.ok [] := by
  simp [_r_logger.Error, hh, hen]

/-- Invariant of reachable package states: the shared default logger
always carries the reserved module name and exactly the handler stored
in the global slot. -/
theorem reachable_inv (s : RlogState) (hr : Reachable s) :
    s._default_r_log.module = DEFAULT_MODULE_NAME ∧
      s._default_r_log.handler = s._default_handler := by
  induction hr with
  | init => exact ⟨rfl, rfl⟩
  | set s h hr ih => exact ⟨by simpa [SetRLogDefaultHandler] using ih.1, rfl⟩

/-- A handler with every severity enabled, used as a concrete test
handler. -/
def handlerOn : LogHandler := { Enabled := fun _ => true }

/-- A handler with every severity disabled, used as a concrete test
handler. -/
def handlerOff : LogHandler := { Enabled := fun _ => false }

/-- A concrete module-scoped logger bound to handlerOn. -/
def sampleLogger : _r_logger := { module := "m", handler := some handlerOn }

/-- A concrete module-scoped logger bound to handlerOff. -/
def sampleLoggerOff : _r_logger := { module := "m", handler := some handlerOff }

/-- The state after installing handlerOn at program start. -/
def stateOne : RlogState := SetRLogDefaultHandler (some handlerOn) initRlogState

/-- The state after then replacing the handler with handlerOff. -/
def stateTwo : RlogState := SetRLogDefaultHandler (some handlerOff) stateOne

/-- C1: for every logger with module name mod, every message m, and
every even-length argument list of string-keyed pairs, a leveled call
whose severity is enabled forwards exactly one LogRecord whose Message
is m, whose Level is the called severity, and whose Attrs are the input
pairs in order followed by exactly one trailing module attribute with
key ATTR_KEY_MODULE and value mod. -/
theorem claim_C1 (l : _r_logger) (h : LogHandler) (msg : String)
    (ks : List String) (vs : List GoVal)
    (hh : l.handler = some h) (hlen : ks.length = vs.length) :
    (h.Enabled LogLevelDebug = true →
      l.Debug msg (zipPairs ks vs) = Except.ok
        [{ Message := msg,
           Attrs := zipAttrs ks vs ++ [{ Key := ATTR_KEY_MODULE, Value := GoVal.str l.module }],
           Level := LogLevelDebug }]) ∧
    (h.Enabled LogLevelInfo = true →
      l.Info msg (zipPairs ks vs) = Except.ok
        [{ Message := msg,
           Attrs := zipAttrs ks vs ++ [{ Key := ATTR_KEY_MODULE, Value := GoVal.str l.module }],
           Level := LogLevelInfo }]) ∧
    (h.Enabled LogLevelWarn = true →
      l.Warn msg (zipPairs ks vs) = Except.ok
        [{ Message := msg,
           Attrs := zipAttrs ks vs ++ [{ Key := ATTR_KEY_MODULE, Value := GoVal.str l.module }],
           Level := LogLevelWarn }]) ∧
    (h.Enabled LogLevelError = true →
      l.Error msg (zipPairs ks vs) = Except.ok
        [{ Message := msg,
           Attrs := zipAttrs ks vs ++ [{ Key := ATTR_KEY_MODULE, Value := GoVal.str l.module }],
           Level := LogLevelError }]) := by
  refine ⟨?_, ?_, ?_, ?_⟩
  · intro hen
    rw [Debug_open l h msg _ hh hen, doLog_pairs l msg LogLevelDebug ks vs hlen, exmap_ok]
  · intro hen
    rw [Info_open l h msg _ hh hen, doLog_pairs l msg LogLevelInfo ks vs hlen, exmap_ok]
  · intro hen
    rw [Warn_open l h msg _ hh hen, doLog_pairs l msg LogLevelWarn ks vs hlen, exmap_ok]
  · intro hen
    rw [Error_open l h msg _ hh hen, doLog_pairs l msg LogLevelError ks vs hlen, exmap_ok]

/-- Witness for C1 at a concrete input: an Info call with one pair. -/
theorem claim_C1_w :
    sampleLogger.Info ("started") (zipPairs ["port"] [GoVal.int 8080]) = Except.ok
      [{ Message := "started",
         Attrs := zipAttrs ["port"] [GoVal.int 8080] ++
           [{ Key := ATTR_KEY_MODULE, Value := GoVal.str sampleLogger.module }],
         Level := LogLevelInfo }] :=
  (claim_C1 sampleLogger handlerOn ("started") ["port"] [GoVal.int 8080] rfl rfl).2.1 rfl

/-- C2: every leveled call first consults Enabled on the bound handler:
when the severity is disabled the call produces no record at all, for
any argument list; when it is enabled, a well-formed call forwards
exactly one record to Handle. -/
theorem claim_C2 (l : _r_logger) (h : LogHandler) (msg : String)
    (hh : l.handler = some h) :
    ((h.Enabled LogLevelDebug = false → ∀ args, l.Debug msg args = Except.ok []) ∧
      (h.Enabled LogLevelDebug = true → ∀ ks vs, ks.length = vs.length →
        ∃ r, l.Debug msg (zipPairs ks vs) = Except.ok [r])) ∧
    ((h.Enabled LogLevelInfo = false → ∀ args, l.Info msg args = Except.ok []) ∧
      (h.Enabled LogLevelInfo = true → ∀ ks vs, ks.length = vs.length →
        ∃ r, l.Info msg (zipPairs ks vs) = Except.ok [r])) ∧
    ((h.Enabled LogLevelWarn = false → ∀ args, l.Warn msg args = Except.ok []) ∧
      (h.Enabled LogLevelWarn = true → ∀ ks vs, ks.length = vs.length →
        ∃ r, l.Warn msg (zipPairs ks vs) = Except.ok [r])) ∧
    ((h.Enabled LogLevelError = false → ∀ args, l.Error msg args = Except.ok []) ∧
      (h.Enabled LogLevelError = true → ∀ ks vs, ks.length = vs.length →
        ∃ r, l.Error msg (zipPairs ks vs) = Except.ok [r])) := by
  refine ⟨⟨?_, ?_⟩, ⟨?_, ?_⟩, ⟨?_, ?_⟩, ⟨?_, ?_⟩⟩
  · intro hen args
    exact Debug_closed l h msg args hh hen
  · intro hen ks vs hlen
    refine ⟨{ Message := msg,
              Attrs := zipAttrs ks vs ++ [{ Key := ATTR_KEY_MODULE, Value := GoVal.str l.module }],
              Level := LogLevelDebug }, ?_⟩
    rw [Debug_open l h msg _ hh hen, doLog_pairs l msg LogLevelDebug ks vs hlen, exmap_ok]
  · intro hen args
    exact Info_closed l h msg args hh hen
  · intro hen ks vs hlen
    refine ⟨{ Message := msg,
              Attrs := zipAttrs ks vs ++ [{ Key := ATTR_KEY_MODULE, Value := GoVal.str l.module }],
              Level := LogLevelInfo }, ?_⟩
    rw [Info_open l h msg _ hh hen, doLog_pairs l msg LogLevelInfo ks vs hlen, exmap_ok]
  · intro hen args
    exact Warn_closed l h msg args hh hen
  · intro hen ks vs hlen
    refine ⟨{ Message := msg,
              Attrs := zipAttrs ks vs ++ [{ Key := ATTR_KEY_MODULE, Value := GoVal.str l.module }],
              Level := LogLevelWarn }, ?_⟩
    rw [Warn_open l h msg _ hh hen, doLog_pairs l msg LogLevelWarn ks vs hlen, exmap_ok]
  · intro hen args
    exact Error_closed l h msg args hh hen
  · intro hen ks vs hlen
    refine ⟨{ Message := msg,
              Attrs := zipAttrs ks vs ++ [{ Key := ATTR_KEY_MODULE, Value := GoVal.str l.module }],
              Level := LogLevelError }, ?_⟩
    rw [Error_open l h msg _ hh hen, doLog_pairs l msg LogLevelError ks vs hlen, exmap_ok]

/-- Witness for C2 at a concrete input: a logger whose handler disables
Debug produces zero records for a Debug call, even with a malformed
argument list. -/
theorem claim_C2_w : sampleLoggerOff.Debug ("x") [GoVal.nil] = Except.ok [] :=
  ((claim_C2 sampleLoggerOff handlerOff ("x") rfl).1).1 rfl [GoVal.nil]

/-- C5: for an enabled call, an even-length argument list never causes
an out-of-bounds access in doLog: the attribute slice of length
len(args)/2 + 1 is filled completely and the only possible panic is the
string type assertion; an odd-length list is not validated and panics
with an index out of range on the argument list. -/
theorem claim_C5 (l : _r_logger) (msg : String) (lvl : LogLevel) :
    (∀ args : List GoVal, args.length % 2 = 0 →
      ((∃ r, l.doLog msg lvl args = Except.ok r ∧ r.Attrs.length = args.length / 2 + 1) ∨
        l.doLog msg lvl args = Except.error GoPanic.typeAssertionFailed)) ∧
    (∀ (ks : List String) (vs : List GoVal) (x : String), ks.length = vs.length →
      l.doLog msg lvl (zipPairs ks vs ++ [GoVal.str x]) =
        Except.error GoPanic.indexOutOfRange) :=
  ⟨fun args hmod => doLog_even l msg lvl args hmod,
   fun ks vs x hlen => doLog_odd l msg lvl ks vs x hlen⟩

/-- Witness for C5 at a concrete input: a three-element argument list
panics with index out of range. -/
theorem claim_C5_w :
    sampleLogger.doLog ("x") LogLevelInfo (zipPairs ["a"] [GoVal.int 1] ++ [GoVal.str "b"]) =
      Except.error GoPanic.indexOutOfRange :=
  (claim_C5 sampleLogger ("x") LogLevelInfo).2 ["a"] [GoVal.int 1] "b" rfl

/-- C8: the log levels are exactly Debug = -1, Info = 0, Warn = 1,
Error = 2, totally ordered Debug < Info < Warn < Error, and the zero
value of LogLevel is Info. -/
theorem claim_C8 :
    LogLevelDebug = -1 ∧ LogLevelInfo = 0 ∧ LogLevelWarn = 1 ∧ LogLevelError = 2 ∧
    LogLevelDebug < LogLevelInfo ∧ LogLevelInfo < LogLevelWarn ∧
    LogLevelWarn < LogLevelError ∧ (0 : LogLevel) = LogLevelInfo := by
  decide

/-- C9: for an enabled leveled call, a non-string value in any even
(key) position makes doLog panic on the type assertion before any
record is forwarded, even though the signature accepts arbitrary
values. -/
theorem claim_C9 (l : _r_logger) (h : LogHandler) (msg : String)
    (ks : List String) (vs : List GoVal) (x : GoVal) (rest : List GoVal)
    (hh : l.handler = some h) (hlen : ks.length = vs.length) (hx : x.isStr = false) :
    (h.Enabled LogLevelDebug = true →
      l.Debug msg (zipPairs ks vs ++ x :: rest) =
        Except.error GoPanic.typeAssertionFailed) ∧
    (h.Enabled LogLevelInfo = true →
      l.Info msg (zipPairs ks vs ++ x :: rest) =
        Except.error GoPanic.typeAssertionFailed) ∧
    (h.Enabled LogLevelWarn = true →
      l.Warn msg (zipPairs ks vs ++ x :: rest) =
        Except.error GoPanic.typeAssertionFailed) ∧
    (h.Enabled LogLevelError = true →
      l.Error msg (zipPairs ks vs ++ x :: rest) =
        Except.error GoPanic.typeAssertionFailed) := by
  refine ⟨?_, ?_, ?_, ?_⟩
  · intro hen
    rw [Debug_open l h msg _ hh hen,
      doLog_badKey l msg LogLevelDebug ks vs x rest hlen hx, exmap_err]
  · intro hen
    rw [Info_open l h msg _ hh hen,
      doLog_badKey l msg LogLevelInfo ks vs x rest hlen hx, exmap_err]
  · intro hen
    rw [Warn_open l h msg _ hh hen,
      doLog_badKey l msg LogLevelWarn ks vs x rest hlen hx, exmap_err]
  · intro hen
    rw [Error_open l h msg _ hh hen,
      doLog_badKey l msg LogLevelError ks vs x rest hlen hx, exmap_err]

/-- Witness for C9 at a concrete input: an Info call whose first
argument is an int panics on the type assertion. -/
theorem claim_C9_w :
    sampleLogger.Info ("x") (zipPairs [] [] ++ GoVal.int 3 :: [GoVal.int 4]) =
      Except.error GoPanic.typeAssertionFailed :=
  (claim_C9 sampleLogger handlerOn ("x") [] [] (GoVal.int 3) [GoVal.int 4]
    rfl rfl rfl).2.1 rfl

/-- C3: in every reachable state with no handler installed, both
GetDefaultLogger and GetLogger abort with the clear diagnostic message
instead of returning a logger; once a handler h is installed, both
return without aborting a logger bound to h, never to a wrong
handler. -/
theorem claim_C3 (s : RlogState) (hr : Reachable s) :
    (s._default_handler = none →
      GetDefaultLogger s =
        Except.error (GoPanic.explicitPanic ("Please set the default handler first.")) ∧
      ∀ m, GetLogger m s =
        Except.error (GoPanic.explicitPanic ("Please set the default handler first."))) ∧
    (∀ h : LogHandler, s._default_handler = some h →
      GetDefaultLogger s = Except.ok ILoggerRef.defaultPtr ∧
      (derefLogger s ILoggerRef.defaultPtr).handler = some h ∧
      ∀ m, GetLogger m s =
        Except.ok (ILoggerRef.fresh { module := m, handler := some h })) := by
  constructor
  · intro hn
    constructor
    · simp [GetDefaultLogger, hn]
    · intro m
      simp [GetLogger, hn]
  · intro h hs
    refine ⟨?_, ?_, ?_⟩
    · simp [GetDefaultLogger, hs]
    · have hib := (reachable_inv s hr).2
      simp [derefLogger, hib, hs]
    · intro m
      simp [GetLogger, hs]

/-- Witness for C3 at a concrete reachable state with a handler
installed. -/
theorem claim_C3_w :
    GetDefaultLogger stateOne = Except.ok ILoggerRef.defaultPtr ∧
    GetLogger ("ext") stateOne =
      Except.ok (ILoggerRef.fresh { module := "ext", handler := some handlerOn }) :=
  ⟨((claim_C3 stateOne (Reachable.set initRlogState (some handlerOn) Reachable.init)).2
      handlerOn rfl).1,
   ((claim_C3 stateOne (Reachable.set initRlogState (some handlerOn) Reachable.init)).2
      handlerOn rfl).2.2 ("ext")⟩

/-- C4: SetRLogDefaultHandler unconditionally replaces the single
global handler slot, whatever state held before; afterwards both
retrieval functions return loggers bound to the new handler. -/
theorem claim_C4 (s : RlogState) (h : LogHandler) :
    (SetRLogDefaultHandler (some h) s)._default_handler = some h ∧
    GetDefaultLogger (SetRLogDefaultHandler (some h) s) = Except.ok ILoggerRef.defaultPtr ∧
    (derefLogger (SetRLogDefaultHandler (some h) s) ILoggerRef.defaultPtr).handler = some h ∧
    ∀ m, GetLogger m (SetRLogDefaultHandler (some h) s) =
      Except.ok (ILoggerRef.fresh { module := m, handler := some h }) :=
  ⟨rfl, rfl, rfl, fun _ => rfl⟩

/-- C6 counterexample: the shared default logger IS mutated after
creation: installing handlerOn, retrieving the default logger, then
installing handlerOff changes the handler binding observed through the
retrieved reference from handlerOn to handlerOff. -/
theorem claim_C6_cex :
    GetDefaultLogger stateOne = Except.ok ILoggerRef.defaultPtr ∧
    (derefLogger stateOne ILoggerRef.defaultPtr).handler = some handlerOn ∧
    (derefLogger stateTwo ILoggerRef.defaultPtr).handler = some handlerOff ∧
    some handlerOn ≠ some handlerOff := by
  refine ⟨rfl, rfl, rfl, ?_⟩
  intro hcontra
  have h1 : handlerOn = handlerOff := Option.some.inj hcontra
  have h2 : handlerOn.Enabled 0 = handlerOff.Enabled 0 := by rw [h1]
  simp [handlerOn, handlerOff] at h2

/-- C6 (amended): a logger returned by GetLogger is a fresh value whose
module name and handler binding are unchanged by every later facade
operation, and module names are never mutated anywhere; only the shared
default logger instance has its handler binding reassigned (by
SetRLogDefaultHandler, see the counterexample). -/
theorem claim_C6 (s s2 : RlogState) (m : String) (l : _r_logger)
    (hg : GetLogger m s = Except.ok (ILoggerRef.fresh l)) (he : Evolves s s2) :
    derefLogger s2 (ILoggerRef.fresh l) = l ∧
    l.module = m ∧
    s2._default_r_log.module = s._default_r_log.module := by
  refine ⟨rfl, ?_, ?_⟩
  · cases hs : s._default_handler with
    | none => simp [GetLogger, hs] at hg
    | some h2 =>
      simp only [GetLogger, hs] at hg
      have h3 := ILoggerRef.fresh.inj (Except.ok.inj hg)
      rw [← h3]
  · induction he with
    | refl => rfl
    | set s4 h3 he2 ih => simpa [SetRLogDefaultHandler] using ih

/-- Witness for the amended C6 at a concrete input. -/
theorem claim_C6_w :
    derefLogger stateTwo (ILoggerRef.fresh { module := "ext", handler := some handlerOn }) =
      { module := "ext", handler := some handlerOn } ∧
    ({ module := "ext", handler := some handlerOn } : _r_logger).module = "ext" ∧
    stateTwo._default_r_log.module = stateOne._default_r_log.module :=
  claim_C6 stateOne stateTwo ("ext") { module := "ext", handler := some handlerOn } rfl
    (Evolves.set stateOne stateOne (some handlerOff) (Evolves.refl stateOne))

/-- C7: in every reachable state with a handler installed, the logger
GetDefaultLogger returns and the logger GetLogger returns for the
reserved module name DEFAULT_MODULE_NAME dereference to equal logger
values (same module name, same handler binding), so they deliver
identical records to the same handler; and GetDefaultLogger always
hands out the one shared instance, so two successive calls agree. -/
theorem claim_C7 (s : RlogState) (h : LogHandler) (hr : Reachable s)
    (hs : s._default_handler = some h) :
    GetDefaultLogger s = Except.ok ILoggerRef.defaultPtr ∧
    GetLogger DEFAULT_MODULE_NAME s =
      Except.ok (ILoggerRef.fresh { module := DEFAULT_MODULE_NAME, handler := some h }) ∧
    derefLogger s ILoggerRef.defaultPtr =
      derefLogger s (ILoggerRef.fresh { module := DEFAULT_MODULE_NAME, handler := some h }) := by
  have hinv := reachable_inv s hr
  have hdr : s._default_r_log = { module := DEFAULT_MODULE_NAME, handler := some h } := by
    rw [← hinv.1, ← hs, ← hinv.2]
  refine ⟨by simp [GetDefaultLogger, hs], by simp [GetLogger, hs], ?_⟩
  simpa [derefLogger] using hdr

/-- Witness for C7 at a concrete reachable state. -/
theorem claim_C7_w :
    GetDefaultLogger stateOne = Except.ok ILoggerRef.defaultPtr ∧
    GetLogger DEFAULT_MODULE_NAME stateOne =
      Except.ok (ILoggerRef.fresh { module := DEFAULT_MODULE_NAME, handler := some handlerOn }) ∧
    derefLogger stateOne ILoggerRef.defaultPtr =
      derefLogger stateOne (ILoggerRef.fresh { module := DEFAULT_MODULE_NAME, handler := some handlerOn }) :=
  claim_C7 stateOne handlerOn (Reachable.set initRlogState (some handlerOn) Reachable.init) rfl

/-- C10: GetLogger returns a fresh logger bound to the handler at
retrieval time, unaffected by a later SetRLogDefaultHandler call, while
GetDefaultLogger always returns the one shared instance, whose binding
follows every SetRLogDefaultHandler call. -/
theorem claim_C10 (s : RlogState) (m : String) (h : LogHandler)
    (hs : s._default_handler = some h) :
    GetLogger m s = Except.ok (ILoggerRef.fresh { module := m, handler := some h }) ∧
    (∀ h2, derefLogger (SetRLogDefaultHandler h2 s)
        (ILoggerRef.fresh { module := m, handler := some h }) =
      { module := m, handler := some h }) ∧
    (∀ h2 : LogHandler,
      GetDefaultLogger (SetRLogDefaultHandler (some h2) s) = Except.ok ILoggerRef.defaultPtr ∧
      (derefLogger (SetRLogDefaultHandler (some h2) s) ILoggerRef.defaultPtr).handler = some h2) ∧
    (∀ r, GetDefaultLogger s = Except.ok r → r = ILoggerRef.defaultPtr) := by
  refine ⟨by simp [GetLogger, hs], fun h2 => rfl, fun h2 => ⟨rfl, rfl⟩, ?_⟩
  intro r hr
  simp only [GetDefaultLogger, hs] at hr
  exact (Except.ok.inj hr).symm

/-- Witness for C10 at a concrete state and module name. -/
theorem claim_C10_w :
    GetLogger ("ext") stateOne =
      Except.ok (ILoggerRef.fresh { module := "ext", handler := some handlerOn }) ∧
    derefLogger stateTwo (ILoggerRef.fresh { module := "ext", handler := some handlerOn }) =
      { module := "ext", handler := some handlerOn } :=
  ⟨(claim_C10 stateOne ("ext") handlerOn rfl).1,
   (claim_C10 stateOne ("ext") handlerOn rfl).2.1 (some handlerOff)⟩
